import Mathlib

/-!
Shallow embedding of the security/authentication runtime of the
`dify-fe-auth` front-end: the in-memory session manager, the token
validator with its verdict cache and blacklist, the cookie signer, the
rate limiters, and the Microsoft key directory cache.

JavaScript `Map` objects are modelled as association lists (`alFind`,
`alSet`, `alErase`), JS `Set` objects as duplicate-free lists in insertion
order (`setAdd`, `setDelete`).  JS numbers holding timestamps are
modelled as `Int`; JS truthiness on optional numeric / string claims is
made explicit (`truthyI`, `truthyS`).  External effects (HMAC, SHA-256
hashing, network fetches, the JWT library, `crypto.createPublicKey`) are
parameters of the embedded functions, so every theorem quantifies over
their outcomes.
-/

namespace DifyAuth

/-- First-match lookup in an association list, modelling `Map.get`. -/
def alFind {α : Type} : List (String × α) → String → Option α
  | [], _ => none
  | (k', v) :: rest, k => if k' = k then some v else alFind rest k

/-- Update or insert a binding, modelling `Map.set` (existing key keeps
its position, new keys are appended in insertion order). -/
def alSet {α : Type} : List (String × α) → String → α → List (String × α)
  | [], k, v => [(k, v)]
  | (k', v') :: rest, k, v =>
    if k' = k then (k, v) :: rest else (k', v') :: alSet rest k v

/-- Remove a binding, modelling `Map.delete`. -/
def alErase {α : Type} (l : List (String × α)) (k : String) : List (String × α) :=
  l.filter (fun p => decide (p.1 ≠ k))

@[simp]
theorem alFind_nil {α : Type} (k : String) : alFind ([] : List (String × α)) k = none := rfl

theorem alFind_alSet_self {α : Type} (l : List (String × α)) (k : String) (v : α) :
    alFind (alSet l k v) k = some v := by
  induction l with
  | nil => simp [alSet, alFind]
  | cons p rest ih =>
    by_cases h : p.1 = k
    · simp [alSet, h, alFind]
    · simp [alSet, h, alFind, ih]

theorem alFind_alSet_ne {α : Type} (l : List (String × α)) (k k' : String) (v : α)
    (h : k' ≠ k) : alFind (alSet l k v) k' = alFind l k' := by
  have hk : ¬ k = k' := fun hh => h hh.symm
  induction l with
  | nil => simp [alSet, alFind, hk]
  | cons p rest ih =>
    by_cases hp : p.1 = k
    · simp [alSet, hp, alFind, hk]
    · simp only [alSet, hp, if_false, alFind]
      by_cases hpk : p.1 = k'
      · simp [hpk]
      · simp [hpk, ih]

theorem alFind_alErase_self {α : Type} (l : List (String × α)) (k : String) :
    alFind (alErase l k) k = none := by
  induction l with
  | nil => simp [alErase, alFind]
  | cons p rest ih =>
    by_cases h : p.1 = k
    · simpa [alErase, h] using ih
    · simpa [alErase, alFind, h] using ih

theorem alFind_alErase_ne {α : Type} (l : List (String × α)) (k k' : String)
    (h : k' ≠ k) : alFind (alErase l k) k' = alFind l k' := by
  have hk : ¬ k = k' := fun hh => h hh.symm
  induction l with
  | nil => simp [alErase, alFind]
  | cons p rest ih =>
    simp only [alErase, List.filter_cons, ne_eq, decide_not] at ih ⊢
    by_cases hp : p.1 = k
    · simp only [hp, alFind, hk, if_false] at ih ⊢
      simpa [hp] using ih
    · by_cases hpk : p.1 = k'
      · simp [hp, alFind, hpk, h]
      · simp [hp, alFind, hpk, ih]

theorem alFind_filter_none {α : Type} (l : List (String × α)) (k : String)
    (p : String × α → Bool) (h : alFind l k = none) :
    alFind (l.filter p) k = none := by
  induction l with
  | nil => simp
  | cons q rest ih =>
    by_cases hq : q.1 = k
    · simp [alFind, hq] at h
    · simp only [alFind, hq, if_false] at h
      by_cases hp : p q
      · simp [List.filter, hp, alFind, hq, ih h]
      · simp [List.filter, hp, ih h]

/-- `Set.add`: append unless already present (insertion order kept). -/
def setAdd (l : List String) (x : String) : List String :=
  if x ∈ l then l else l ++ [x]

/-- `Set.delete`: remove the element. -/
def setDelete (l : List String) (x : String) : List String :=
  l.filter (fun y => decide (y ≠ x))

/-! ## Session manager (simplified in-memory manager) -/

/-- `SessionData` record; timestamps are epoch milliseconds. -/
structure SessionData where
  sessionId : String
  userId : String
  email : String
  name : String
  accessToken : String
  refreshToken : Option String
  tokenExpiry : Int
  createdAt : Int
  lastActivity : Int
  deriving DecidableEq, Repr

/-- Token material handed over by MSAL; `expiresOn` is the epoch-ms value
of `expiresOn?.getTime()` when defined. -/
structure TokenData where
  accessToken : String
  refreshToken : Option String
  expiresOn : Option Int
  deriving DecidableEq, Repr

/-- The two module-level maps `sessionStore` and `userSessions`. -/
structure SessionState where
  sessionStore : List (String × SessionData)
  userSessions : List (String × List String)
  deriving DecidableEq, Repr

/-- `SESSION_TIMEOUT = 60 * 60 * 1000` (one hour in ms). -/
def SESSION_TIMEOUT : Int := 60 * 60 * 1000

/-- `MAX_CONCURRENT_SESSIONS = 5`. -/
def MAX_CONCURRENT_SESSIONS : Nat := 5

/-- JS `tokenData.expiresOn?.getTime() || fallback`: the fallback is used
when `expiresOn` is absent or its value is falsy (zero). -/
def jsExpiry (expiresOn : Option Int) (fallback : Int) : Int :=
  match expiresOn with
  | some t => if t = 0 then fallback else t
  | none => fallback

/-- `isSessionExpired`: token expiry (truthy `tokenExpiry` strictly before
now) or inactivity beyond `SESSION_TIMEOUT`. -/
def isSessionExpired (now : Int) (s : SessionData) : Bool :=
  (decide (s.tokenExpiry ≠ 0) && decide (s.tokenExpiry < now)) ||
    decide (now - s.lastActivity > SESSION_TIMEOUT)

/-- `destroySession`: remove the record from the store and the owner's
index entry, dropping the index entry when it becomes empty.  Cookie
clearing has no effect on the two maps and is not modelled. -/
def destroySession (sid : String) (st : SessionState) : SessionState :=
  match alFind st.sessionStore sid with
  | none => st
  | some s =>
    let userSessions' :=
      match alFind st.userSessions s.userId with
      | none => st.userSessions
      | some set =>
        let set' := setDelete set sid
        if set' = [] then alErase st.userSessions s.userId
        else alSet st.userSessions s.userId set'
    { sessionStore := alErase st.sessionStore sid, userSessions := userSessions' }

/-- `cleanupUserSessions`: when the user holds at least
`MAX_CONCURRENT_SESSIONS` ids, pair each id with its record (dropping
dangling ids), sort newest-first by `createdAt` (the JS comparator
`b.createdAt - a.createdAt`, stably), and destroy everything past the
first `MAX_CONCURRENT_SESSIONS - 1`. -/
def cleanupUserSessions (userId : String) (st : SessionState) : SessionState :=
  match alFind st.userSessions userId with
  | none => st
  | some ids =>
    if MAX_CONCURRENT_SESSIONS ≤ ids.length then
      let withTime := ids.filterMap
        (fun i => (alFind st.sessionStore i).map (fun s => (i, s)))
      let sorted := withTime.mergeSort
        (fun a b => decide (b.2.createdAt ≤ a.2.createdAt))
      let toRemove := sorted.drop (MAX_CONCURRENT_SESSIONS - 1)
      toRemove.foldl (fun acc item => destroySession item.1 acc) st
    else st

/-- User info argument of `createSession`. -/
structure UserInfo3 where
  id : String
  email : String
  name : String
  deriving DecidableEq, Repr

/-- `createSession`: clean up the user's old sessions, build the record
with `createdAt = lastActivity = now`, store it and add the fresh id to
the user's index.  The generated id and the clock are parameters. -/
def createSession (tok : TokenData) (userInfo : UserInfo3) (newSid : String)
    (now : Int) (st : SessionState) : String × SessionState :=
  let st1 := cleanupUserSessions userInfo.id st
  let data : SessionData :=
    { sessionId := newSid
      userId := userInfo.id
      email := userInfo.email
      name := userInfo.name
      accessToken := tok.accessToken
      refreshToken := tok.refreshToken
      tokenExpiry := jsExpiry tok.expiresOn (now + SESSION_TIMEOUT)
      createdAt := now
      lastActivity := now }
  let store' := alSet st1.sessionStore newSid data
  let cur := (alFind st1.userSessions userInfo.id).getD []
  let idx' := alSet st1.userSessions userInfo.id (setAdd cur newSid)
  (newSid, { sessionStore := store', userSessions := idx' })

/-- `getSession`: missing id yields null; an expired record is destroyed
and null returned; otherwise `lastActivity` is bumped to now and the
updated record returned. -/
def getSession (sid : String) (now : Int) (st : SessionState) :
    Option SessionData × SessionState :=
  match alFind st.sessionStore sid with
  | none => (none, st)
  | some s =>
    if isSessionExpired now s then (none, destroySession sid st)
    else
      let s' := { s with lastActivity := now }
      (some s', { st with sessionStore := alSet st.sessionStore sid s' })

/-- `updateSession`: refresh the token fields (falsy new refresh token
keeps the old one, falsy `expiresOn` keeps the old expiry) and bump
activity. -/
def updateSession (sid : String) (tok : TokenData) (now : Int)
    (st : SessionState) : Option SessionData × SessionState :=
  match alFind st.sessionStore sid with
  | none => (none, st)
  | some s =>
    let s' : SessionData :=
      { s with
        accessToken := tok.accessToken
        refreshToken :=
          match tok.refreshToken with
          | some r => if r = "" then s.refreshToken else some r
          | none => s.refreshToken
        tokenExpiry := jsExpiry tok.expiresOn s.tokenExpiry
        lastActivity := now }
    (some s', { st with sessionStore := alSet st.sessionStore sid s' })

/-- `cleanupExpiredSessions`: collect expired ids, then destroy each. -/
def cleanupExpiredSessions (now : Int) (st : SessionState) : SessionState :=
  let expired := (st.sessionStore.filter (fun p => isSessionExpired now p.2)).map
    (fun p => p.1)
  expired.foldl (fun acc sid => destroySession sid acc) st

/-! ## Session manager lemmas -/

theorem destroySession_not_found (sid : String) (st : SessionState)
    (h : alFind st.sessionStore sid = none) : destroySession sid st = st := by
  simp [destroySession, h]

theorem alFind_destroySession_store (sid sid' : String) (st : SessionState) :
    alFind (destroySession sid st).sessionStore sid' =
      if sid' = sid then none else alFind st.sessionStore sid' := by
  cases h : alFind st.sessionStore sid with
  | none =>
    rw [destroySession_not_found sid st h]
    by_cases he : sid' = sid
    · simp [he, h]
    · simp [he]
  | some s =>
    by_cases he : sid' = sid
    · simp [destroySession, h, he, alFind_alErase_self]
    · simp [destroySession, h, he, alFind_alErase_ne _ _ _ he]

theorem not_mem_setDelete (l : List String) (x : String) : x ∉ setDelete l x := by
  simp [setDelete, List.mem_filter]

theorem mem_setDelete {l : List String} {x y : String}
    (h : y ∈ setDelete l x) : y ∈ l ∧ y ≠ x := by
  simpa [setDelete, List.mem_filter] using h

/-! ## Claim C9: destroySession is idempotent -/

/-- C9: `destroySession(id)` is idempotent: running it a second time on
the resulting state raises no error and leaves the session store and the
per-user session index maps exactly as one call left them. -/
theorem destroySession_idempotent (sid : String) (st : SessionState) :
    destroySession sid (destroySession sid st) = destroySession sid st := by
  cases h : alFind st.sessionStore sid with
  | none =>
    rw [destroySession_not_found sid st h, destroySession_not_found sid st h]
  | some s =>
    apply destroySession_not_found
    rw [alFind_destroySession_store]
    simp

/-! ## Claim C2: getSession expiry behaviour -/

/-- A session whose `tokenExpiry` equals the current clock value. -/
def c2Session : SessionData :=
  { sessionId := "sid1", userId := "u1", email := "e", name := "n"
    accessToken := "at", refreshToken := none
    tokenExpiry := 100, createdAt := 10, lastActivity := 100 }

/-- A store holding exactly `c2Session`, indexed for its user. -/
def c2State : SessionState :=
  { sessionStore := [("sid1", c2Session)], userSessions := [("u1", ["sid1"])] }

/-- C2 counterexample: at `tokenExpiry = now` (here both 100) the claim
demands null and removal, but `isSessionExpired` only fires on the strict
inequality `tokenExpiry < now`, so `getSession` returns the record. -/
theorem getSession_boundary_counterexample :
    c2Session.tokenExpiry ≤ 100 ∧
      (getSession "sid1" 100 c2State).1 = some c2Session := by
  constructor
  · decide
  · rfl

/-- C2 (amended): when a stored record's `tokenExpiry` is nonzero and
strictly before `now`, `getSession` returns null and removes the record
from the session store and from the owner's session index; when
`tokenExpiry` is strictly after `now` and the idle time is within
`SESSION_TIMEOUT`, `getSession` returns the record with `lastActivity`
bumped to `now` and re-stores it. -/
theorem getSession_expiry_behavior (st : SessionState) (sid : String)
    (s : SessionData) (now : Int)
    (hfind : alFind st.sessionStore sid = some s) :
    (s.tokenExpiry ≠ 0 → s.tokenExpiry < now →
      (getSession sid now st).1 = none ∧
      alFind (getSession sid now st).2.sessionStore sid = none ∧
      (∀ ids, alFind (getSession sid now st).2.userSessions s.userId = some ids →
        sid ∉ ids)) ∧
    (now < s.tokenExpiry → now - s.lastActivity ≤ SESSION_TIMEOUT →
      (getSession sid now st).1 = some { s with lastActivity := now } ∧
      alFind (getSession sid now st).2.sessionStore sid =
        some { s with lastActivity := now }) := by
  constructor
  · intro hne hlt
    have hexp : isSessionExpired now s = true := by
      simp [isSessionExpired, hne, hlt]
    have hget : getSession sid now st = (none, destroySession sid st) := by
      simp [getSession, hfind, hexp]
    refine ⟨by rw [hget], ?_, ?_⟩
    · rw [hget, alFind_destroySession_store]
      simp
    · intro ids hids
      rw [hget] at hids
      simp only [destroySession, hfind] at hids
      cases hidx : alFind st.userSessions s.userId with
      | none =>
        rw [hidx] at hids
        simp only [hidx] at hids
        exact absurd hids (by simp)
      | some set =>
        rw [hidx] at hids
        by_cases hemp : setDelete set sid = []
        · simp only [hemp, if_true] at hids
          rw [alFind_alErase_self] at hids
          exact absurd hids (by simp)
        · simp only [hemp, if_false] at hids
          rw [alFind_alSet_self] at hids
          have : ids = setDelete set sid := by
            injection hids.symm
          rw [this]
          exact not_mem_setDelete set sid
  · intro hgt hidle
    have hexp : isSessionExpired now s = false := by
      have h1 : ¬ s.tokenExpiry < now := by omega
      have h2 : ¬ now - s.lastActivity > SESSION_TIMEOUT := by omega
      simp [isSessionExpired, h1, h2]
    simp [getSession, hfind, hexp, alFind_alSet_self]

/-- C2 witness: the amended theorem applied at a concrete expired record
(`tokenExpiry = 100 < now = 200`). -/
theorem getSession_expiry_behavior_witness :
    (getSession "sid1" 200 c2State).1 = none ∧
      alFind (getSession "sid1" 200 c2State).2.sessionStore "sid1" = none := by
  have h := getSession_expiry_behavior c2State "sid1" c2Session 200 (by rfl)
  have h1 := h.1 (by decide) (by decide)
  exact ⟨h1.1, h1.2.1⟩

/-! ## Claim C10: the store/index invariant -/

/-- Every id indexed for a user is backed by a record owned by that user,
and no user's index entry is empty. -/
def SessionInvariant (st : SessionState) : Prop :=
  (∀ uid ids, alFind st.userSessions uid = some ids →
    ∀ sid ∈ ids, ∃ s, alFind st.sessionStore sid = some s ∧ s.userId = uid) ∧
  (∀ uid ids, alFind st.userSessions uid = some ids → ids ≠ [])

theorem destroySession_idx_of_none (sid : String) (st : SessionState)
    (s : SessionData) (hfind : alFind st.sessionStore sid = some s)
    (hidx : alFind st.userSessions s.userId = none) :
    (destroySession sid st).userSessions = st.userSessions := by
  simp [destroySession, hfind, hidx]

theorem destroySession_idx_of_emptied (sid : String) (st : SessionState)
    (s : SessionData) (set : List String)
    (hfind : alFind st.sessionStore sid = some s)
    (hidx : alFind st.userSessions s.userId = some set)
    (hemp : setDelete set sid = []) :
    (destroySession sid st).userSessions = alErase st.userSessions s.userId := by
  simp [destroySession, hfind, hidx, hemp]

theorem destroySession_idx_of_kept (sid : String) (st : SessionState)
    (s : SessionData) (set : List String)
    (hfind : alFind st.sessionStore sid = some s)
    (hidx : alFind st.userSessions s.userId = some set)
    (hemp : ¬ setDelete set sid = []) :
    (destroySession sid st).userSessions =
      alSet st.userSessions s.userId (setDelete set sid) := by
  simp [destroySession, hfind, hidx, hemp]

theorem destroySession_invariant (sid : String) (st : SessionState)
    (h : SessionInvariant st) : SessionInvariant (destroySession sid st) := by
  cases hfind : alFind st.sessionStore sid with
  | none => rw [destroySession_not_found sid st hfind]; exact h
  | some s =>
    have keep :
        ∀ uid ids, alFind (destroySession sid st).userSessions uid = some ids →
          (∀ sid' ∈ ids, sid' ∈ setDelete ((alFind st.userSessions uid).getD []) sid
              ∨ (uid ≠ s.userId ∧ alFind st.userSessions uid = some ids)) ∧
            ids ≠ [] := by
      intro uid ids hids
      cases hidx : alFind st.userSessions s.userId with
      | none =>
        rw [destroySession_idx_of_none sid st s hfind hidx] at hids
        refine ⟨fun sid' hsid' => Or.inr ⟨?_, hids⟩, h.2 uid ids hids⟩
        intro he
        rw [he, hidx] at hids
        exact absurd hids (by simp)
      | some set =>
        by_cases hemp : setDelete set sid = []
        · rw [destroySession_idx_of_emptied sid st s set hfind hidx hemp] at hids
          by_cases he : uid = s.userId
          · rw [he, alFind_alErase_self] at hids
            exact absurd hids (by simp)
          · rw [alFind_alErase_ne _ _ _ he] at hids
            exact ⟨fun sid' hsid' => Or.inr ⟨he, hids⟩, h.2 uid ids hids⟩
        · rw [destroySession_idx_of_kept sid st s set hfind hidx hemp] at hids
          by_cases he : uid = s.userId
          · rw [he, alFind_alSet_self] at hids
            have hids' : ids = setDelete set sid := by injection hids.symm
            subst hids'
            refine ⟨fun sid' hsid' => Or.inl ?_, hemp⟩
            rw [he, hidx]
            exact hsid'
          · rw [alFind_alSet_ne _ _ _ _ he] at hids
            exact ⟨fun sid' hsid' => Or.inr ⟨he, hids⟩, h.2 uid ids hids⟩
    constructor
    · intro uid ids hids sid' hsid'
      rcases (keep uid ids hids).1 sid' hsid' with hdel | ⟨he, hold⟩
      · obtain ⟨hmem, hne⟩ := mem_setDelete hdel
        cases hcur : alFind st.userSessions uid with
        | none => rw [hcur] at hmem; simp at hmem
        | some cur =>
          rw [hcur] at hmem
          simp only [Option.getD] at hmem
          obtain ⟨t, hft, hut⟩ := h.1 uid cur hcur sid' hmem
          refine ⟨t, ?_, hut⟩
          rw [alFind_destroySession_store, if_neg hne]
          exact hft
      · obtain ⟨t, hft, hut⟩ := h.1 uid ids hold sid' hsid'
        have hne : sid' ≠ sid := by
          intro hcontra
          rw [hcontra, hfind] at hft
          have hst : s = t := by injection hft
          rw [← hst] at hut
          exact he hut.symm
        refine ⟨t, ?_, hut⟩
        rw [alFind_destroySession_store, if_neg hne]
        exact hft
    · intro uid ids hids
      exact (keep uid ids hids).2

theorem foldl_destroySession_invariant {β : Type} (L : List β) (f : β → String)
    (st : SessionState) (h : SessionInvariant st) :
    SessionInvariant (L.foldl (fun acc x => destroySession (f x) acc) st) := by
  induction L generalizing st with
  | nil => exact h
  | cons x rest ih =>
    exact ih (destroySession (f x) st) (destroySession_invariant (f x) st h)

theorem foldl_destroySession_find_none {β : Type} (L : List β) (f : β → String)
    (st : SessionState) (k : String) (h : alFind st.sessionStore k = none) :
    alFind (L.foldl (fun acc x => destroySession (f x) acc) st).sessionStore k
      = none := by
  induction L generalizing st with
  | nil => exact h
  | cons x rest ih =>
    apply ih
    rw [alFind_destroySession_store]
    by_cases he : k = f x
    · simp [he]
    · simp [he, h]

theorem cleanupUserSessions_invariant (uid : String) (st : SessionState)
    (h : SessionInvariant st) : SessionInvariant (cleanupUserSessions uid st) := by
  unfold cleanupUserSessions
  cases hidx : alFind st.userSessions uid with
  | none => exact h
  | some ids =>
    by_cases hlen : MAX_CONCURRENT_SESSIONS ≤ ids.length
    · simp only [hlen, if_true]
      exact foldl_destroySession_invariant _ _ st h
    · simp only [hlen, if_false]
      exact h

theorem cleanupUserSessions_find_none (uid : String) (st : SessionState)
    (k : String) (h : alFind st.sessionStore k = none) :
    alFind (cleanupUserSessions uid st).sessionStore k = none := by
  unfold cleanupUserSessions
  cases hidx : alFind st.userSessions uid with
  | none => exact h
  | some ids =>
    by_cases hlen : MAX_CONCURRENT_SESSIONS ≤ ids.length
    · simp only [hlen, if_true]
      exact foldl_destroySession_find_none _ _ st k h
    · simp only [hlen, if_false]
      exact h

theorem invariant_store_update (st : SessionState) (h : SessionInvariant st)
    (sid : String) (s s' : SessionData)
    (hfind : alFind st.sessionStore sid = some s) (huid : s'.userId = s.userId) :
    SessionInvariant
      { st with sessionStore := alSet st.sessionStore sid s' } := by
  constructor
  · intro uid ids hids sid' hsid'
    obtain ⟨t, hft, hut⟩ := h.1 uid ids hids sid' hsid'
    by_cases he : sid' = sid
    · refine ⟨s', ?_, ?_⟩
      · rw [he, alFind_alSet_self]
      · rw [he, hfind] at hft
        have : s = t := by injection hft
        rw [huid, this, hut]
    · refine ⟨t, ?_, hut⟩
      rw [alFind_alSet_ne _ _ _ _ he]
      exact hft
  · intro uid ids hids
    exact h.2 uid ids hids

theorem mem_setAdd {l : List String} {x y : String} (h : y ∈ setAdd l x) :
    y = x ∨ y ∈ l := by
  by_cases hin : x ∈ l
  · simp only [setAdd, hin, if_true] at h
    exact Or.inr h
  · simp only [setAdd, hin, if_false, List.mem_append, List.mem_singleton] at h
    exact h.symm

theorem setAdd_ne_nil (l : List String) (x : String) : setAdd l x ≠ [] := by
  by_cases hin : x ∈ l
  · simp only [setAdd, hin, if_true]
    intro hnil
    rw [hnil] at hin
    simp at hin
  · simp [setAdd, hin]

theorem insert_session_invariant (st1 : SessionState) (h1 : SessionInvariant st1)
    (newSid uid : String) (data : SessionData) (hdata : data.userId = uid)
    (hf1 : alFind st1.sessionStore newSid = none) :
    SessionInvariant
      { sessionStore := alSet st1.sessionStore newSid data
        userSessions := alSet st1.userSessions uid
          (setAdd ((alFind st1.userSessions uid).getD []) newSid) } := by
  constructor
  · intro uid' ids hids sid' hsid'
    by_cases he : uid' = uid
    · subst he
      rw [alFind_alSet_self] at hids
      have hids' : ids = setAdd ((alFind st1.userSessions uid').getD []) newSid := by
        injection hids.symm
      subst hids'
      rcases mem_setAdd hsid' with hsn | hmem
      · subst hsn
        exact ⟨data, alFind_alSet_self _ _ _, hdata⟩
      · cases hcur : alFind st1.userSessions uid' with
        | none =>
          rw [hcur] at hmem
          simp at hmem
        | some cur =>
          rw [hcur] at hmem
          simp only [Option.getD_some] at hmem
          obtain ⟨t, hft, hut⟩ := h1.1 uid' cur hcur sid' hmem
          have hsn : sid' ≠ newSid := by
            intro hcontra
            rw [hcontra, hf1] at hft
            exact absurd hft (by simp)
          refine ⟨t, ?_, hut⟩
          rw [alFind_alSet_ne _ _ _ _ hsn]
          exact hft
    · rw [alFind_alSet_ne _ _ _ _ he] at hids
      obtain ⟨t, hft, hut⟩ := h1.1 uid' ids hids sid' hsid'
      have hsn : sid' ≠ newSid := by
        intro hcontra
        rw [hcontra, hf1] at hft
        exact absurd hft (by simp)
      refine ⟨t, ?_, hut⟩
      rw [alFind_alSet_ne _ _ _ _ hsn]
      exact hft
  · intro uid' ids hids
    by_cases he : uid' = uid
    · subst he
      rw [alFind_alSet_self] at hids
      have hids' : ids = setAdd ((alFind st1.userSessions uid').getD []) newSid := by
        injection hids.symm
      rw [hids']
      exact setAdd_ne_nil _ _
    · rw [alFind_alSet_ne _ _ _ _ he] at hids
      exact h1.2 uid' ids hids

theorem createSession_invariant (tok : TokenData) (userInfo : UserInfo3)
    (newSid : String) (now : Int) (st : SessionState) (h : SessionInvariant st)
    (hfresh : alFind st.sessionStore newSid = none) :
    SessionInvariant (createSession tok userInfo newSid now st).2 := by
  have h1 : SessionInvariant (cleanupUserSessions userInfo.id st) :=
    cleanupUserSessions_invariant userInfo.id st h
  have hf1 : alFind (cleanupUserSessions userInfo.id st).sessionStore newSid
      = none := cleanupUserSessions_find_none userInfo.id st newSid hfresh
  exact insert_session_invariant (cleanupUserSessions userInfo.id st) h1 newSid
    userInfo.id _ rfl hf1

theorem getSession_invariant (sid : String) (now : Int) (st : SessionState)
    (h : SessionInvariant st) : SessionInvariant (getSession sid now st).2 := by
  unfold getSession
  cases hfind : alFind st.sessionStore sid with
  | none => exact h
  | some s =>
    by_cases hexp : isSessionExpired now s
    · simp only [hexp, if_true]
      exact destroySession_invariant sid st h
    · simp only [hexp, if_false]
      exact invariant_store_update st h sid s _ hfind rfl

theorem updateSession_invariant (sid : String) (tok : TokenData) (now : Int)
    (st : SessionState) (h : SessionInvariant st) :
    SessionInvariant (updateSession sid tok now st).2 := by
  unfold updateSession
  cases hfind : alFind st.sessionStore sid with
  | none => exact h
  | some s => exact invariant_store_update st h sid s _ hfind rfl

theorem cleanupExpiredSessions_invariant (now : Int) (st : SessionState)
    (h : SessionInvariant st) : SessionInvariant (cleanupExpiredSessions now st) :=
  foldl_destroySession_invariant _ _ st h

/-- C10: each in-memory backend operation preserves the invariant that
every indexed session id has a backing record owned by that user and that
every present index entry is non-empty (`createSession` under a fresh
generated id). -/
theorem sessionOps_preserve_invariant (st : SessionState)
    (hinv : SessionInvariant st) (sid : String) (now : Int) (tok : TokenData)
    (userInfo : UserInfo3) (newSid : String) :
    SessionInvariant (getSession sid now st).2 ∧
    SessionInvariant (updateSession sid tok now st).2 ∧
    SessionInvariant (destroySession sid st) ∧
    SessionInvariant (cleanupExpiredSessions now st) ∧
    (alFind st.sessionStore newSid = none →
      SessionInvariant (createSession tok userInfo newSid now st).2) :=
  ⟨getSession_invariant sid now st hinv,
   updateSession_invariant sid tok now st hinv,
   destroySession_invariant sid st hinv,
   cleanupExpiredSessions_invariant now st hinv,
   fun hfresh => createSession_invariant tok userInfo newSid now st hinv hfresh⟩

/-! ## Claim C3: session cap eviction -/

theorem mem_withTime_iff (ids : List String) (store : List (String × SessionData))
    (i : String) (s : SessionData) :
    (i, s) ∈ ids.filterMap (fun j => (alFind store j).map (fun t => (j, t))) ↔
      i ∈ ids ∧ alFind store i = some s := by
  simp only [List.mem_filterMap, Option.map_eq_some']
  constructor
  · rintro ⟨j, hj, t, ht, heq⟩
    have hji : j = i := congrArg Prod.fst heq
    have hts : t = s := congrArg Prod.snd heq
    subst hji
    subst hts
    exact ⟨hj, ht⟩
  · rintro ⟨hi, hs⟩
    exact ⟨i, hi, s, hs, rfl⟩

theorem withTime_map_fst (ids : List String) (store : List (String × SessionData))
    (hall : ∀ i ∈ ids, ∃ s, alFind store i = some s) :
    (ids.filterMap (fun j => (alFind store j).map (fun t => (j, t)))).map Prod.fst
      = ids := by
  induction ids with
  | nil => simp
  | cons j rest ih =>
    obtain ⟨s, hs⟩ := hall j (by simp)
    have ihr := ih (fun i hi => hall i (by simp [hi]))
    simp [List.filterMap_cons, hs, ihr]

theorem cleanupUserSessions_eq_foldl (uid : String) (st : SessionState)
    (ids : List String) (hidx : alFind st.userSessions uid = some ids)
    (hfive : MAX_CONCURRENT_SESSIONS ≤ ids.length) :
    cleanupUserSessions uid st =
      (((ids.filterMap
            (fun j => (alFind st.sessionStore j).map (fun t => (j, t)))).mergeSort
          (fun a b => decide (b.2.createdAt ≤ a.2.createdAt))).drop
        (MAX_CONCURRENT_SESSIONS - 1)).foldl
          (fun acc item => destroySession item.1 acc) st := by
  simp [cleanupUserSessions, hidx, hfive]

theorem setDelete_length_of_nodup (l : List String) (x : String)
    (hnd : l.Nodup) (hx : x ∈ l) : (setDelete l x).length + 1 = l.length := by
  induction l with
  | nil => simp at hx
  | cons a rest ih =>
    rw [List.nodup_cons] at hnd
    rcases List.mem_cons.mp hx with hxa | hxr
    · subst hxa
      simp only [setDelete, List.filter_cons]
      simp
      intro a ha hax
      exact hnd.1 (hax ▸ ha)
    · have hxa : x ≠ a := fun hh => hnd.1 (hh ▸ hxr)
      have hax : a ≠ x := fun hh => hxa hh.symm
      simp only [setDelete, List.filter_cons]
      have hdec : (decide (a ≠ x)) = true := by simp [hax]
      rw [hdec]
      simp only [List.length_cons]
      rw [← ih hnd.2 hxr]
      rfl

/-- C3: from any state in which a user owns exactly five indexed sessions
(each backed by a record of that user), `createSession` with a fresh id
evicts a session whose `createdAt` is minimal among the five, leaves the
user with exactly five sessions (the four most recent plus the new one),
and `getSession` on the evicted id returns null ever after. -/
theorem createSession_cap_eviction
    (st : SessionState) (uid : String) (ids : List String)
    (tok : TokenData) (em nm : String) (newSid : String) (now : Int)
    (hidx : alFind st.userSessions uid = some ids)
    (hlen : ids.length = 5)
    (hnd : ids.Nodup)
    (hrec : ∀ sid ∈ ids, ∃ s, alFind st.sessionStore sid = some s ∧ s.userId = uid)
    (hfresh : alFind st.sessionStore newSid = none) :
    ∃ dropped ∈ ids, ∃ sdrop,
      alFind st.sessionStore dropped = some sdrop ∧
      (∀ sid ∈ ids, ∀ s, alFind st.sessionStore sid = some s →
        sdrop.createdAt ≤ s.createdAt) ∧
      alFind (createSession tok ⟨uid, em, nm⟩ newSid now st).2.userSessions uid
        = some (setDelete ids dropped ++ [newSid]) ∧
      (setDelete ids dropped ++ [newSid]).length = 5 ∧
      (∀ t, (getSession dropped t (createSession tok ⟨uid, em, nm⟩ newSid now st).2).1
        = none) := by
  classical
  set store := st.sessionStore with hstore
  set wt := ids.filterMap (fun j => (alFind store j).map (fun t => (j, t)))
    with hwt
  set le := fun (a b : String × SessionData) =>
    decide (b.2.createdAt ≤ a.2.createdAt) with hle
  set sorted := wt.mergeSort le with hsorted
  have hwt_fst : wt.map Prod.fst = ids :=
    withTime_map_fst ids store (fun i hi => ⟨(hrec i hi).choose, (hrec i hi).choose_spec.1⟩)
  have hwt_len : wt.length = 5 := by
    have := congrArg List.length hwt_fst
    simpa [hlen] using this
  have hsorted_len : sorted.length = 5 := by
    rw [hsorted, List.length_mergeSort, hwt_len]
  have hdrop_len : (sorted.drop 4).length = 1 := by
    rw [List.length_drop, hsorted_len]
  obtain ⟨m, hm⟩ := List.length_eq_one.mp hdrop_len
  have hm_mem_sorted : m ∈ sorted := by
    have : m ∈ sorted.drop 4 := by rw [hm]; simp
    exact List.mem_of_mem_drop this
  have hm_mem_wt : m ∈ wt := ((wt.mergeSort_perm le).mem_iff).mp hm_mem_sorted
  have hm_pair := (mem_withTime_iff ids store m.1 m.2).mp hm_mem_wt
  obtain ⟨hm_id, hm_find⟩ := hm_pair
  obtain ⟨srec, hsrec, hsuid⟩ := hrec m.1 hm_id
  have hsrec_eq : srec = m.2 := by
    rw [hm_find] at hsrec
    exact (Option.some_inj.mp hsrec).symm
  have hm_uid : m.2.userId = uid := by rw [← hsrec_eq]; exact hsuid
  -- minimality of the dropped element
  have hmin : ∀ p ∈ wt, m.2.createdAt ≤ p.2.createdAt := by
    have htrans : ∀ a b c, le a b = true → le b c = true → le a c = true := by
      intro a b c hab hbc
      simp only [hle, decide_eq_true_eq] at hab hbc ⊢
      omega
    have htotal : ∀ a b, (le a b || le b a) = true := by
      intro a b
      simp only [hle, Bool.or_eq_true, decide_eq_true_eq]
      omega
    have hpw : List.Pairwise (fun a b => le a b = true) sorted :=
      List.sorted_mergeSort htrans htotal wt
    intro p hp
    have hp_sorted : p ∈ sorted := ((wt.mergeSort_perm le).mem_iff).mpr hp
    rw [← List.take_append_drop 4 sorted] at hp_sorted
    have hpw' := (List.take_append_drop 4 sorted) ▸ hpw
    rcases List.mem_append.mp hp_sorted with hptake | hpdrop
    · have hrel := (List.pairwise_append.mp hpw').2.2 p hptake m
        (by rw [hm]; simp)
      simpa [hle, decide_eq_true_eq] using hrel
    · rw [hm] at hpdrop
      have : p = m := by simpa using hpdrop
      rw [this]
  -- char of the state after cleanup: it destroys exactly the dropped session
  have hfive : MAX_CONCURRENT_SESSIONS ≤ ids.length := by
    rw [hlen]; decide
  have hcleanup0 := cleanupUserSessions_eq_foldl uid st ids hidx hfive
  have hm_raw : (((ids.filterMap
        (fun j => (alFind st.sessionStore j).map (fun t => (j, t)))).mergeSort
      (fun a b => decide (b.2.createdAt ≤ a.2.createdAt))).drop
    (MAX_CONCURRENT_SESSIONS - 1)) = [m] := hm
  rw [hm_raw] at hcleanup0
  simp only [List.foldl_cons, List.foldl_nil] at hcleanup0
  have hlen4 : (setDelete ids m.1).length = 4 := by
    have := setDelete_length_of_nodup ids m.1 hnd hm_id
    omega
  have hset' : setDelete ids m.1 ≠ [] := by
    intro hnil
    rw [hnil] at hlen4
    simp at hlen4
  have hidx1 : (destroySession m.1 st).userSessions =
      alSet st.userSessions uid (setDelete ids m.1) := by
    have hk := destroySession_idx_of_kept m.1 st m.2 ids hm_find
      (by rw [hm_uid]; exact hidx) hset'
    rw [hm_uid] at hk
    exact hk
  have hfind_idx1 : alFind (destroySession m.1 st).userSessions uid =
      some (setDelete ids m.1) := by
    rw [hidx1]
    exact alFind_alSet_self _ _ _
  have hnewSid_not : newSid ∉ setDelete ids m.1 := by
    intro hmem
    obtain ⟨hmem', _⟩ := mem_setDelete hmem
    obtain ⟨s, hs, _⟩ := hrec newSid hmem'
    rw [hfresh] at hs
    exact absurd hs (by simp)
  have hsetAdd : setAdd (setDelete ids m.1) newSid =
      setDelete ids m.1 ++ [newSid] := by
    simp [setAdd, hnewSid_not]
  have hstate : (createSession tok ⟨uid, em, nm⟩ newSid now st).2 =
      { sessionStore := alSet (cleanupUserSessions uid st).sessionStore newSid
          { sessionId := newSid, userId := uid, email := em, name := nm
            accessToken := tok.accessToken, refreshToken := tok.refreshToken
            tokenExpiry := jsExpiry tok.expiresOn (now + SESSION_TIMEOUT)
            createdAt := now, lastActivity := now }
        userSessions := alSet (cleanupUserSessions uid st).userSessions uid
          (setAdd ((alFind (cleanupUserSessions uid st).userSessions uid).getD [])
            newSid) } := rfl
  have hm_ne_new : m.1 ≠ newSid := by
    intro hcontra
    rw [hcontra, hfresh] at hm_find
    exact absurd hm_find (by simp)
  refine ⟨m.1, hm_id, m.2, hm_find, ?_, ?_, ?_, ?_⟩
  · intro sid hsid s hs
    exact hmin (sid, s) ((mem_withTime_iff ids store sid s).mpr ⟨hsid, hs⟩)
  · rw [hstate]
    simp only [hcleanup0, hfind_idx1, Option.getD_some]
    rw [alFind_alSet_self, hsetAdd]
  · simp [hlen4]
  · intro t
    have hfind' : alFind
        (createSession tok ⟨uid, em, nm⟩ newSid now st).2.sessionStore m.1
          = none := by
      rw [hstate]
      simp only
      rw [alFind_alSet_ne _ _ _ _ hm_ne_new, hcleanup0,
        alFind_destroySession_store]
      simp
    simp [getSession, hfind']

/-- A concrete session record for the C3 witness state. -/
def c3Rec (sid : String) (created : Int) : SessionData :=
  { sessionId := sid, userId := "u", email := "e", name := "n"
    accessToken := "at", refreshToken := none
    tokenExpiry := 10, createdAt := created, lastActivity := 0 }

/-- A state in which user `u` owns five sessions created at times 1..5. -/
def c3State : SessionState :=
  { sessionStore := [("a", c3Rec "a" 1), ("b", c3Rec "b" 2), ("c", c3Rec "c" 3),
      ("d", c3Rec "d" 4), ("e", c3Rec "e" 5)]
    userSessions := [("u", ["a", "b", "c", "d", "e"])] }

/-- C3 witness: the eviction theorem applied to `c3State` with fresh id
`f`. -/
theorem createSession_cap_eviction_witness :
    ∃ dropped ∈ (["a", "b", "c", "d", "e"] : List String), ∃ sdrop,
      alFind c3State.sessionStore dropped = some sdrop ∧
      (∀ sid ∈ (["a", "b", "c", "d", "e"] : List String), ∀ s,
        alFind c3State.sessionStore sid = some s →
          sdrop.createdAt ≤ s.createdAt) ∧
      alFind (createSession ⟨"at", none, none⟩ ⟨"u", "e", "n"⟩ "f" 6
          c3State).2.userSessions "u"
        = some (setDelete ["a", "b", "c", "d", "e"] dropped ++ ["f"]) ∧
      (setDelete ["a", "b", "c", "d", "e"] dropped ++ ["f"]).length = 5 ∧
      (∀ t, (getSession dropped t (createSession ⟨"at", none, none⟩
        ⟨"u", "e", "n"⟩ "f" 6 c3State).2).1 = none) := by
  apply createSession_cap_eviction c3State "u" ["a", "b", "c", "d", "e"]
    ⟨"at", none, none⟩ "e" "n" "f" 6
  · rfl
  · decide
  · decide
  · intro sid hsid
    fin_cases hsid
    · exact ⟨c3Rec "a" 1, rfl, rfl⟩
    · exact ⟨c3Rec "b" 2, rfl, rfl⟩
    · exact ⟨c3Rec "c" 3, rfl, rfl⟩
    · exact ⟨c3Rec "d" 4, rfl, rfl⟩
    · exact ⟨c3Rec "e" 5, rfl, rfl⟩
  · rfl

/-- C10 witness: the preservation theorem applied at the empty state. -/
theorem sessionOps_preserve_invariant_witness :
    SessionInvariant ⟨[], []⟩ ∧
      SessionInvariant (destroySession "sid1" ⟨[], []⟩) := by
  have h0 : SessionInvariant ⟨[], []⟩ := by
    constructor
    · intro uid ids hids
      simp [alFind] at hids
    · intro uid ids hids
      simp [alFind] at hids
  exact ⟨h0,
    (sessionOps_preserve_invariant ⟨[], []⟩ h0 "sid1" 0
      ⟨"at", none, none⟩ ⟨"u1", "e", "n"⟩ "sid2").2.2.1⟩

/-! ## Token validator -/

/-- Decoded JWT payload; absent claims are `none`.  `exp`, `nbf`, `iat`
are epoch-second numbers. -/
structure TokenPayload where
  exp : Option Int
  nbf : Option Int
  iat : Option Int
  aud : Option String
  oid : Option String
  sub : Option String
  email : Option String
  preferred_username : Option String
  upn : Option String
  name : Option String
  given_name : Option String
  deriving DecidableEq, Repr

/-- JS truthiness of an optional number (absent or zero is falsy). -/
def truthyI : Option Int → Bool
  | some v => decide (v ≠ 0)
  | none => false

/-- JS truthiness of an optional string (absent or empty is falsy). -/
def truthyS : Option String → Bool
  | some s => decide (s ≠ "")
  | none => false

/-- Normalised user info extracted from a payload. -/
structure ExtractedUserInfo where
  id : String
  email : Option String
  name : Option String
  deriving DecidableEq, Repr

/-- JS `a || b` on optional strings: keep `a` when truthy, else `b`. -/
def jsOrS (a b : Option String) : Option String :=
  if truthyS a then a else b

/-- `extractUserInfo`: `oid || sub` as id, `email || preferred_username
|| upn`, `name || given_name`. -/
def extractUserInfo (p : TokenPayload) : ExtractedUserInfo :=
  { id := (jsOrS p.oid p.sub).getD ""
    email := jsOrS p.email (jsOrS p.preferred_username p.upn)
    name := jsOrS p.name p.given_name }

/-- `validateTokenClaims`: expiry, not-before, future-issue skew (300s),
audience (only when both client id and `aud` are truthy), and presence of
a truthy `oid` or `sub`.  Each JS `payload.x && …` guard is truthiness on
the claim value. -/
def validateTokenClaims (clientId : Option String) (now : Int)
    (p : TokenPayload) : Bool :=
  if truthyI p.exp && decide (p.exp.getD 0 < now) then false
  else if truthyI p.nbf && decide (p.nbf.getD 0 > now) then false
  else if truthyI p.iat && decide (p.iat.getD 0 > now + 300) then false
  else if truthyS clientId && truthyS p.aud &&
      decide (p.aud.getD "" ≠ clientId.getD "") then false
  else if !truthyS p.oid && !truthyS p.sub then false
  else true

/-- A `TokenValidationResult` verdict. -/
structure TokenValidationResult where
  valid : Bool
  error : Option String
  userInfo : Option ExtractedUserInfo
  deriving DecidableEq, Repr

/-- A `TokenBlacklistEntry`: the `token` field holds the token hash. -/
structure TokenBlacklistEntry where
  token : String
  reason : String
  timestamp : Int
  deriving DecidableEq, Repr

/-- The validator's two `NodeCache` instances. -/
structure ValidatorState where
  validationCache : List (String × TokenValidationResult)
  blacklistCache : List (String × TokenBlacklistEntry)
  deriving DecidableEq, Repr

/-- External outcomes consumed by one `validateAccessToken` call: the
rate-limiter verdict for the caller IP, the `jwt.decode` result, the
outcome of signature verification against the key directory, and the
outcome of the Microsoft Graph introspection call. -/
structure ValidatorOracle where
  rateLimitOk : Bool
  decoded : Option TokenPayload
  sigValid : Bool
  graphValid : Bool

/-- `getTokenCacheKey`: `validation_` prefix on the token hash. -/
def getTokenCacheKey (hashFn : String → String) (token : String) : String :=
  "validation_" ++ hashFn token

/-- `isTokenBlacklisted`: hash lookup in the blacklist cache. -/
def isTokenBlacklisted (hashFn : String → String) (token : String)
    (st : ValidatorState) : Bool :=
  (alFind st.blacklistCache (hashFn token)).isSome

/-- `blacklistToken`: store an entry holding only the token hash under
the hash key, then drop any cached verdict for the token. -/
def blacklistToken (hashFn : String → String) (token reason : String)
    (nowMs : Int) (st : ValidatorState) : ValidatorState :=
  { blacklistCache := alSet st.blacklistCache (hashFn token)
      { token := hashFn token, reason := reason, timestamp := nowMs }
    validationCache := alErase st.validationCache
      (getTokenCacheKey hashFn token) }

/-- `removeFromBlacklist`: drop the blacklist entry and the cached
verdict. -/
def removeFromBlacklist (hashFn : String → String) (token : String)
    (st : ValidatorState) : ValidatorState :=
  { blacklistCache := alErase st.blacklistCache (hashFn token)
    validationCache := alErase st.validationCache
      (getTokenCacheKey hashFn token) }

/-- `validateAccessToken`: rate limit, verdict cache, blacklist,
structural decode, signature, claims, Graph introspection, then success;
every terminal verdict except the rate-limit one is cached. -/
def validateAccessToken (hashFn : String → String) (clientId : Option String)
    (now : Int) (token : String) (clientIp : Option String)
    (oracle : ValidatorOracle) (st : ValidatorState) :
    TokenValidationResult × ValidatorState :=
  if clientIp.isSome && !oracle.rateLimitOk then
    ({ valid := false, error := some "Rate limit exceeded", userInfo := none }, st)
  else
    let cacheKey := getTokenCacheKey hashFn token
    match alFind st.validationCache cacheKey with
    | some cached => (cached, st)
    | none =>
      if isTokenBlacklisted hashFn token st then
        let r : TokenValidationResult :=
          { valid := false, error := some "Token is blacklisted", userInfo := none }
        (r, { st with validationCache := alSet st.validationCache cacheKey r })
      else
        match oracle.decoded with
        | none =>
          let r : TokenValidationResult :=
            { valid := false, error := some "Invalid token structure", userInfo := none }
          (r, { st with validationCache := alSet st.validationCache cacheKey r })
        | some payload =>
          if !oracle.sigValid then
            let r : TokenValidationResult :=
              { valid := false, error := some "Invalid token signature", userInfo := none }
            (r, { st with validationCache := alSet st.validationCache cacheKey r })
          else if !validateTokenClaims clientId now payload then
            let r : TokenValidationResult :=
              { valid := false, error := some "Invalid token claims", userInfo := none }
            (r, { st with validationCache := alSet st.validationCache cacheKey r })
          else if !oracle.graphValid then
            let r : TokenValidationResult :=
              { valid := false, error := some "Microsoft Graph validation failed"
                userInfo := none }
            (r, { st with validationCache := alSet st.validationCache cacheKey r })
          else
            let r : TokenValidationResult :=
              { valid := true, error := none
                userInfo := some (extractUserInfo payload) }
            (r, { st with validationCache := alSet st.validationCache cacheKey r })

/-! ## Claim C1: blacklisting forces an invalid verdict -/

/-- C1: after `blacklistToken(token, reason)`, the stored blacklist entry
keys on the token hash and its `token` field holds the hash (never the
raw token when the hash differs from it), the cached verdict for the
token is deleted, and the very next `validateAccessToken(token)` returns
`valid = false` — for every prior state, including states caching a
valid verdict, and every outcome of the external checks. -/
theorem blacklistToken_invalidates (hashFn : String → String)
    (clientId : Option String) (now nowMs : Int) (token reason : String)
    (clientIp : Option String) (oracle : ValidatorOracle)
    (st : ValidatorState) :
    alFind (blacklistToken hashFn token reason nowMs st).blacklistCache
        (hashFn token)
      = some { token := hashFn token, reason := reason, timestamp := nowMs } ∧
    (hashFn token ≠ token →
      ∀ e, alFind (blacklistToken hashFn token reason nowMs st).blacklistCache
          (hashFn token) = some e → e.token ≠ token) ∧
    alFind (blacklistToken hashFn token reason nowMs st).validationCache
        (getTokenCacheKey hashFn token) = none ∧
    (validateAccessToken hashFn clientId now token clientIp oracle
        (blacklistToken hashFn token reason nowMs st)).1.valid = false := by
  refine ⟨?_, ?_, ?_, ?_⟩
  · exact alFind_alSet_self _ _ _
  · intro hne e he
    simp only [blacklistToken] at he
    rw [alFind_alSet_self] at he
    have : ({ token := hashFn token, reason := reason, timestamp := nowMs }
        : TokenBlacklistEntry) = e := by injection he
    rw [← this]
    exact hne
  · exact alFind_alErase_self _ _
  · by_cases hrl : clientIp.isSome && !oracle.rateLimitOk
    · simp [validateAccessToken, hrl]
    · have hcache : alFind
          (blacklistToken hashFn token reason nowMs st).validationCache
          (getTokenCacheKey hashFn token) = none := alFind_alErase_self _ _
      have hbl : isTokenBlacklisted hashFn token
          (blacklistToken hashFn token reason nowMs st) = true := by
        simp [isTokenBlacklisted, blacklistToken, alFind_alSet_self]
      simp [validateAccessToken, hrl, hcache, hbl]

/-- C1 witness: blacklisting token `t` (hash `h`) in the empty state,
then validating with all external checks passing, still yields an invalid
verdict, and the stored entry holds the hash, not the token. -/
theorem blacklistToken_invalidates_witness :
    (validateAccessToken (fun _ => "h") none 0 "t" none
        ⟨true, none, true, true⟩
        (blacklistToken (fun _ => "h") "t" "r" 0 ⟨[], []⟩)).1.valid = false ∧
    (∀ e, alFind (blacklistToken (fun _ => "h") "t" "r" 0
        ⟨[], []⟩).blacklistCache "h" = some e → e.token ≠ "t") := by
  have h := blacklistToken_invalidates (fun _ => "h") none 0 0 "t" "r" none
    ⟨true, none, true, true⟩ ⟨[], []⟩
  exact ⟨h.2.2.2, h.2.1 (by decide)⟩

/-! ## Claim C5: the claim-check step -/

/-- The claim-level rejection condition as the spec words it: a claim is
checked whenever it is present (`some`), audience whenever both the
configured client id and the `aud` claim are present. -/
def specClaimReject (clientId : Option String) (now : Int)
    (p : TokenPayload) : Prop :=
  (∃ e, p.exp = some e ∧ e < now) ∨
  (∃ b, p.nbf = some b ∧ b > now) ∨
  (∃ i, p.iat = some i ∧ i > now + 300) ∨
  (clientId.isSome ∧ ∃ a, p.aud = some a ∧ some a ≠ clientId) ∨
  (p.oid = none ∧ p.sub = none)

/-- The rejection condition actually enforced by the code: each check
fires only on a truthy claim value (nonzero number, non-empty string). -/
def truthyClaimReject (clientId : Option String) (now : Int)
    (p : TokenPayload) : Prop :=
  (∃ e, p.exp = some e ∧ e ≠ 0 ∧ e < now) ∨
  (∃ b, p.nbf = some b ∧ b ≠ 0 ∧ b > now) ∨
  (∃ i, p.iat = some i ∧ i ≠ 0 ∧ i > now + 300) ∨
  (∃ c, clientId = some c ∧ c ≠ "" ∧
    ∃ a, p.aud = some a ∧ a ≠ "" ∧ a ≠ c) ∨
  (¬ (∃ o, p.oid = some o ∧ o ≠ "") ∧ ¬ (∃ u, p.sub = some u ∧ u ≠ ""))

/-- A payload with `exp = 0` (an epoch-zero expiry, long in the past)
and a valid subject claim. -/
def c5Payload : TokenPayload :=
  { exp := some 0, nbf := none, iat := none, aud := none
    oid := some "user-1", sub := none, email := none
    preferred_username := none, upn := none, name := none, given_name := none }

/-- C5 counterexample: `c5Payload` is expired in the claim's sense
(`exp = 0 < now = 1000`), yet the claim-check step accepts it — the JS
guard `payload.exp && payload.exp < now` skips the falsy value 0 — and a
full validation with passing external checks returns `valid = true`. -/
theorem validateTokenClaims_zero_exp_counterexample :
    c5Payload.exp = some 0 ∧ (0 : Int) < 1000 ∧
    validateTokenClaims none 1000 c5Payload = true ∧
    (validateAccessToken (fun _ => "h") none 1000 "t" none
        ⟨true, some c5Payload, true, true⟩ ⟨[], []⟩).1.valid = true := by
  refine ⟨rfl, by decide, by decide, ?_⟩
  rfl

theorem guard_exp_iff (now : Int) (o : Option Int) :
    (truthyI o && decide (o.getD 0 < now)) = true ↔
      ∃ e, o = some e ∧ e ≠ 0 ∧ e < now := by
  cases o <;> simp [truthyI]

theorem guard_future_iff (t : Int) (o : Option Int) :
    (truthyI o && decide (o.getD 0 > t)) = true ↔
      ∃ b, o = some b ∧ b ≠ 0 ∧ b > t := by
  cases o <;> simp [truthyI]

theorem guard_aud_iff (ci a : Option String) :
    (truthyS ci && truthyS a && decide (a.getD "" ≠ ci.getD "")) = true ↔
      ∃ c, ci = some c ∧ c ≠ "" ∧ ∃ x, a = some x ∧ x ≠ "" ∧ x ≠ c := by
  cases ci <;> cases a <;> simp [truthyS]
  tauto

theorem guard_subject_iff (o u : Option String) :
    (!truthyS o && !truthyS u) = true ↔
      (¬ (∃ x, o = some x ∧ x ≠ "")) ∧ (¬ (∃ y, u = some y ∧ y ≠ "")) := by
  cases o <;> cases u <;> simp [truthyS]

/-- C5 (amended): the claim-check step accepts a payload exactly when
none of the checks fires, where every check is guarded by JS truthiness:
expiry/not-before/future-issue only for a present nonzero claim, audience
only for a present non-empty `aud` and a configured non-empty client id,
and the subject requirement is a present non-empty `oid` or `sub`.  A
payload rejected by the claim-check step makes `validateAccessToken`
return an invalid verdict when reached past cache, blacklist, decode and
signature. -/
theorem validateTokenClaims_truthy_spec (clientId : Option String)
    (now : Int) (p : TokenPayload) :
    (validateTokenClaims clientId now p = true ↔
      ¬ truthyClaimReject clientId now p) ∧
    (∀ hashFn token st rateLimitOk sigValid graphValid,
      alFind st.validationCache (getTokenCacheKey hashFn token) = none →
      isTokenBlacklisted hashFn token st = false →
      validateTokenClaims clientId now p = false →
      (validateAccessToken hashFn clientId now token none
        ⟨rateLimitOk, some p, sigValid, graphValid⟩ st).1.valid = false) := by
  constructor
  · rw [validateTokenClaims]
    by_cases h1 : (truthyI p.exp && decide (p.exp.getD 0 < now)) = true
    · rw [if_pos h1]
      simp only [Bool.false_eq_true, false_iff, not_not]
      exact Or.inl ((guard_exp_iff now p.exp).mp h1)
    · rw [if_neg h1]
      by_cases h2 : (truthyI p.nbf && decide (p.nbf.getD 0 > now)) = true
      · rw [if_pos h2]
        simp only [Bool.false_eq_true, false_iff, not_not]
        exact Or.inr (Or.inl ((guard_future_iff now p.nbf).mp h2))
      · rw [if_neg h2]
        by_cases h3 : (truthyI p.iat && decide (p.iat.getD 0 > now + 300)) = true
        · rw [if_pos h3]
          simp only [Bool.false_eq_true, false_iff, not_not]
          exact Or.inr (Or.inr (Or.inl
            ((guard_future_iff (now + 300) p.iat).mp h3)))
        · rw [if_neg h3]
          by_cases h4 : (truthyS clientId && truthyS p.aud &&
              decide (p.aud.getD "" ≠ clientId.getD "")) = true
          · rw [if_pos h4]
            simp only [Bool.false_eq_true, false_iff, not_not]
            exact Or.inr (Or.inr (Or.inr (Or.inl
              ((guard_aud_iff clientId p.aud).mp h4))))
          · rw [if_neg h4]
            by_cases h5 : (!truthyS p.oid && !truthyS p.sub) = true
            · rw [if_pos h5]
              simp only [Bool.false_eq_true, false_iff, not_not]
              exact Or.inr (Or.inr (Or.inr (Or.inr
                ((guard_subject_iff p.oid p.sub).mp h5))))
            · rw [if_neg h5]
              simp only [true_iff]
              rintro (hA | hB | hC | hD | hE)
              · exact h1 ((guard_exp_iff now p.exp).mpr hA)
              · exact h2 ((guard_future_iff now p.nbf).mpr hB)
              · exact h3 ((guard_future_iff (now + 300) p.iat).mpr hC)
              · exact h4 ((guard_aud_iff clientId p.aud).mpr hD)
              · exact h5 ((guard_subject_iff p.oid p.sub).mpr hE)
  · intro hashFn token st rateLimitOk sigValid graphValid hcache hbl hclaims
    by_cases hsig : sigValid
    · simp [validateAccessToken, hcache, hbl, hclaims, hsig]
    · simp [validateAccessToken, hcache, hbl, hclaims, hsig]

/-- C5 witness: the amended theorem applied to `c5Payload`, which the
code accepts (no truthy check fires), and to the same payload with a
truthy expired `exp = 10`, which the code rejects and the full pipeline
reports invalid. -/
theorem validateTokenClaims_truthy_spec_witness :
    (validateTokenClaims none 1000 c5Payload = true ↔
      ¬ truthyClaimReject none 1000 c5Payload) ∧
    (validateAccessToken (fun _ => "h") none 1000 "t" none
      ⟨true, some { c5Payload with exp := some 10 }, true, true⟩
      ⟨[], []⟩).1.valid = false := by
  constructor
  · exact (validateTokenClaims_truthy_spec none 1000 c5Payload).1
  · exact (validateTokenClaims_truthy_spec none 1000
      { c5Payload with exp := some 10 }).2 (fun _ => "h") "t" ⟨[], []⟩
      true true true rfl rfl (by decide)

/-! ## Rate limiters -/

/-- `Math.ceil(a / b)` on integer inputs with positive `b`. -/
def jsCeilDiv (a b : Int) : Int := -((-a) / b)

/-- `Math.round(a / b)` on integer inputs with positive even `b`:
`Math.round(x) = ⌊x + 1/2⌋`. -/
def jsRoundDiv (a b : Int) : Int := (2 * a + b) / (2 * b)

/-- Config of the simplified API rate limiter (`skipOnError` default
false). -/
structure ApiRateLimitConfig where
  maxRequests : Nat
  windowMs : Int
  skipOnError : Bool
  deriving DecidableEq, Repr

/-- A `RateLimitEntry` of the in-memory store. -/
structure ApiRateLimitEntry where
  count : Nat
  resetTime : Int
  deriving DecidableEq, Repr

/-- Observable outcome of one `checkRateLimit` call: the returned record
plus the response status and `Retry-After` header when a response is
produced. -/
structure ApiRateLimitResult where
  allowed : Bool
  remaining : Int
  resetTime : Int
  status : Option Nat
  retryAfter : Option Int
  deriving DecidableEq, Repr

/-- The window-aligned map key `identifier:(now - now % windowMs)`
(JS `%` is truncated remainder). -/
def jsWindowKey (identifier : String) (now windowMs : Int) : String :=
  identifier ++ ":" ++ toString (now - now.tmod windowMs)

/-- `checkRateLimit` of the simplified API limiter: prune entries whose
`resetTime` passed the cutoff, create-or-increment the window entry, deny
with 429 and a `Retry-After` when the count exceeds the budget.  `failed`
is the outcome of the surrounding try/catch: on an internal error the
call allows only under `skipOnError`, otherwise denies with 500. -/
def checkRateLimit (identifier : String) (cfg : ApiRateLimitConfig)
    (now : Int) (store : List (String × ApiRateLimitEntry)) (failed : Bool) :
    ApiRateLimitResult × List (String × ApiRateLimitEntry) :=
  if failed then
    if cfg.skipOnError then
      ({ allowed := true, remaining := (cfg.maxRequests : Int)
         resetTime := now + cfg.windowMs, status := none, retryAfter := none },
       store)
    else
      ({ allowed := false, remaining := 0, resetTime := now + cfg.windowMs
         status := some 500, retryAfter := none }, store)
  else
    let key := jsWindowKey identifier now cfg.windowMs
    let cutoff := now - cfg.windowMs
    let store1 := store.filter (fun p => decide (¬ p.2.resetTime < cutoff))
    let entry := (alFind store1 key).getD
      { count := 0, resetTime := now + cfg.windowMs }
    let entry' : ApiRateLimitEntry := { entry with count := entry.count + 1 }
    let store2 := alSet store1 key entry'
    if entry'.count > cfg.maxRequests then
      ({ allowed := false, remaining := 0, resetTime := entry'.resetTime
         status := some 429
         retryAfter := some (jsCeilDiv (entry'.resetTime - now) 1000) }, store2)
    else
      ({ allowed := true
         remaining := max 0 ((cfg.maxRequests : Int) - entry'.count)
         resetTime := entry'.resetTime, status := none, retryAfter := none },
       store2)

/-- Rule of the `RateLimiterService` (`points` per `duration` seconds). -/
structure ServiceRateLimitConfig where
  points : Nat
  duration : Int
  deriving DecidableEq, Repr

/-- Outcome of the backend `limiter.consume` call: success, limit
reached (the rejection carries `remainingPoints`), or any other error. -/
inductive ConsumeOutcome where
  | ok (remainingPoints : Int) (msBeforeNext : Int)
  | limitReached (remainingPoints : Int) (msBeforeNext : Int)
  | failure
  deriving DecidableEq, Repr

/-- The `RateLimitResult` record of the service. -/
structure ServiceRateLimitResult where
  allowed : Bool
  limit : Nat
  used : Int
  remaining : Int
  resetTime : Int
  retryAfter : Option Int
  deriving DecidableEq, Repr

/-- `RateLimiterService.checkLimit`: map the backend outcome; rejections
carrying `remainingPoints` deny with a rounded `retryAfter`; any other
backend error allows the request (fail open). -/
def checkLimit (cfg : ServiceRateLimitConfig) (outcome : ConsumeOutcome)
    (now : Int) : ServiceRateLimitResult :=
  match outcome with
  | .ok rem ms =>
    { allowed := true, limit := cfg.points, used := (cfg.points : Int) - rem
      remaining := rem, resetTime := now + ms, retryAfter := none }
  | .limitReached rem ms =>
    { allowed := false, limit := cfg.points, used := (cfg.points : Int) - rem
      remaining := rem, resetTime := now + ms
      retryAfter := some (jsRoundDiv ms 1000) }
  | .failure =>
    { allowed := true, limit := cfg.points, used := 0
      remaining := (cfg.points : Int)
      resetTime := now + cfg.duration * 1000, retryAfter := none }

/-- Four successive `checkRateLimit` calls starting from an empty store. -/
def apiConsume4 (identifier : String) (cfg : ApiRateLimitConfig)
    (t1 t2 t3 t4 : Int) :
    ApiRateLimitResult × ApiRateLimitResult × ApiRateLimitResult ×
      ApiRateLimitResult :=
  let r1 := checkRateLimit identifier cfg t1 [] false
  let r2 := checkRateLimit identifier cfg t2 r1.2 false
  let r3 := checkRateLimit identifier cfg t3 r2.2 false
  let r4 := checkRateLimit identifier cfg t4 r3.2 false
  (r1.1, r2.1, r3.1, r4.1)

/-! ## Claim C6: three allowed, fourth denied -/

/-- C6: under a 3-requests/60s rule, four `checkRateLimit` calls with the
same identifier at increasing times inside one aligned window return:
allowed with remaining 2, 1, 0, then denied with a strictly positive
`Retry-After`. -/
theorem checkRateLimit_four_calls (identifier : String) (t1 t2 t3 t4 : Int)
    (h0 : 0 ≤ t1) (h12 : t1 ≤ t2) (h23 : t2 ≤ t3) (h34 : t3 ≤ t4)
    (hw2 : t2 - t2.tmod 60000 = t1 - t1.tmod 60000)
    (hw3 : t3 - t3.tmod 60000 = t1 - t1.tmod 60000)
    (hw4 : t4 - t4.tmod 60000 = t1 - t1.tmod 60000) :
    (apiConsume4 identifier ⟨3, 60000, false⟩ t1 t2 t3 t4).1.allowed = true ∧
    (apiConsume4 identifier ⟨3, 60000, false⟩ t1 t2 t3 t4).1.remaining = 2 ∧
    (apiConsume4 identifier ⟨3, 60000, false⟩ t1 t2 t3 t4).2.1.allowed = true ∧
    (apiConsume4 identifier ⟨3, 60000, false⟩ t1 t2 t3 t4).2.1.remaining = 1 ∧
    (apiConsume4 identifier ⟨3, 60000, false⟩ t1 t2 t3 t4).2.2.1.allowed
      = true ∧
    (apiConsume4 identifier ⟨3, 60000, false⟩ t1 t2 t3 t4).2.2.1.remaining
      = 0 ∧
    (apiConsume4 identifier ⟨3, 60000, false⟩ t1 t2 t3 t4).2.2.2.allowed
      = false ∧
    (∃ ra, (apiConsume4 identifier ⟨3, 60000, false⟩ t1 t2 t3 t4).2.2.2.retryAfter
      = some ra ∧ 0 < ra) := by
  have hm1 : 0 ≤ t1.tmod 60000 := Int.tmod_nonneg _ h0
  have hm2 : 0 ≤ t2.tmod 60000 := Int.tmod_nonneg _ (by omega)
  have hm3 : 0 ≤ t3.tmod 60000 := Int.tmod_nonneg _ (by omega)
  have hm4 : 0 ≤ t4.tmod 60000 := Int.tmod_nonneg _ (by omega)
  have hl2 : t2.tmod 60000 < 60000 := Int.tmod_lt_of_pos _ (by norm_num)
  have hl3 : t3.tmod 60000 < 60000 := Int.tmod_lt_of_pos _ (by norm_num)
  have hl4 : t4.tmod 60000 < 60000 := Int.tmod_lt_of_pos _ (by norm_num)
  have ht2 : t2 < t1 + 60000 := by omega
  have ht3 : t3 < t1 + 60000 := by omega
  have ht4 : t4 < t1 + 60000 := by omega
  have hkey2 : jsWindowKey identifier t2 60000 =
      jsWindowKey identifier t1 60000 := by
    unfold jsWindowKey
    rw [hw2]
  have hkey3 : jsWindowKey identifier t3 60000 =
      jsWindowKey identifier t1 60000 := by
    unfold jsWindowKey
    rw [hw3]
  have hkey4 : jsWindowKey identifier t4 60000 =
      jsWindowKey identifier t1 60000 := by
    unfold jsWindowKey
    rw [hw4]
  have hr1 : checkRateLimit identifier ⟨3, 60000, false⟩ t1 [] false =
      ({ allowed := true, remaining := 2, resetTime := t1 + 60000
         status := none, retryAfter := none },
       [(jsWindowKey identifier t1 60000,
         { count := 1, resetTime := t1 + 60000 })]) := by
    simp [checkRateLimit, alFind, alSet]
  have hr2 : checkRateLimit identifier ⟨3, 60000, false⟩ t2
      [(jsWindowKey identifier t1 60000,
        { count := 1, resetTime := t1 + 60000 })] false =
      ({ allowed := true, remaining := 1, resetTime := t1 + 60000
         status := none, retryAfter := none },
       [(jsWindowKey identifier t1 60000,
         { count := 2, resetTime := t1 + 60000 })]) := by
    have hkeepA : ¬ (t1 + 60000 : Int) < t2 - 60000 := by omega
    have hkeepB : t2 ≤ t1 + 60000 + 60000 := by omega
    simp [checkRateLimit, hkey2, alFind, alSet, hkeepA, hkeepB]
  have hr3 : checkRateLimit identifier ⟨3, 60000, false⟩ t3
      [(jsWindowKey identifier t1 60000,
        { count := 2, resetTime := t1 + 60000 })] false =
      ({ allowed := true, remaining := 0, resetTime := t1 + 60000
         status := none, retryAfter := none },
       [(jsWindowKey identifier t1 60000,
         { count := 3, resetTime := t1 + 60000 })]) := by
    have hkeepA : ¬ (t1 + 60000 : Int) < t3 - 60000 := by omega
    have hkeepB : t3 ≤ t1 + 60000 + 60000 := by omega
    simp [checkRateLimit, hkey3, alFind, alSet, hkeepA, hkeepB]
  have hr4 : checkRateLimit identifier ⟨3, 60000, false⟩ t4
      [(jsWindowKey identifier t1 60000,
        { count := 3, resetTime := t1 + 60000 })] false =
      ({ allowed := false, remaining := 0, resetTime := t1 + 60000
         status := some 429
         retryAfter := some (jsCeilDiv (t1 + 60000 - t4) 1000) },
       [(jsWindowKey identifier t1 60000,
         { count := 4, resetTime := t1 + 60000 })]) := by
    have hkeepA : ¬ (t1 + 60000 : Int) < t4 - 60000 := by omega
    have hkeepB : t4 ≤ t1 + 60000 + 60000 := by omega
    simp [checkRateLimit, hkey4, alFind, alSet, hkeepA, hkeepB]
  have hpos : 0 < jsCeilDiv (t1 + 60000 - t4) 1000 := by
    unfold jsCeilDiv
    omega
  simp only [apiConsume4, hr1, hr2, hr3, hr4]
  refine ⟨trivial, trivial, trivial, trivial, trivial, trivial, trivial,
    ⟨_, rfl, hpos⟩⟩

/-- C6 witness: the four-call theorem applied at all times 0. -/
theorem checkRateLimit_four_calls_witness :
    (apiConsume4 "ip" ⟨3, 60000, false⟩ 0 0 0 0).1.allowed = true ∧
    (apiConsume4 "ip" ⟨3, 60000, false⟩ 0 0 0 0).1.remaining = 2 ∧
    (apiConsume4 "ip" ⟨3, 60000, false⟩ 0 0 0 0).2.1.allowed = true ∧
    (apiConsume4 "ip" ⟨3, 60000, false⟩ 0 0 0 0).2.1.remaining = 1 ∧
    (apiConsume4 "ip" ⟨3, 60000, false⟩ 0 0 0 0).2.2.1.allowed = true ∧
    (apiConsume4 "ip" ⟨3, 60000, false⟩ 0 0 0 0).2.2.1.remaining = 0 ∧
    (apiConsume4 "ip" ⟨3, 60000, false⟩ 0 0 0 0).2.2.2.allowed = false ∧
    (∃ ra, (apiConsume4 "ip" ⟨3, 60000, false⟩ 0 0 0 0).2.2.2.retryAfter
      = some ra ∧ 0 < ra) :=
  checkRateLimit_four_calls "ip" 0 0 0 0 (by decide) (by decide) (by decide)
    (by decide) rfl rfl rfl

/-! ## Claim C7: fail-open on backend errors -/

/-- C7 counterexample: an internal error in `checkRateLimit` under a
config without `skipOnError` (as all the preset configs are) denies the
request with a 500 response instead of allowing it. -/
theorem checkRateLimit_error_denies :
    (checkRateLimit "id" ⟨3, 60000, false⟩ 0 [] true).1.allowed = false ∧
    (checkRateLimit "id" ⟨3, 60000, false⟩ 0 [] true).1.status = some 500 := by
  exact ⟨rfl, rfl⟩

/-- C7 (amended): `RateLimiterService.checkLimit` fails open — a backend
error that is not a limit rejection yields `allowed = true` — while the
simplified `checkRateLimit` fails open on an internal error only when
`skipOnError` is set, and otherwise denies with a 500 response. -/
theorem rateLimiter_fail_open_behavior :
    (∀ (cfg : ServiceRateLimitConfig) (now : Int),
      (checkLimit cfg .failure now).allowed = true) ∧
    (∀ (identifier : String) (cfg : ApiRateLimitConfig) (now : Int)
        (store : List (String × ApiRateLimitEntry)),
      (checkRateLimit identifier cfg now store true).1.allowed
          = cfg.skipOnError ∧
        (checkRateLimit identifier cfg now store true).1.status
          = (if cfg.skipOnError then none else some 500)) := by
  constructor
  · intro cfg now
    rfl
  · intro identifier cfg now store
    by_cases hskip : cfg.skipOnError
    · simp [checkRateLimit, hskip]
    · simp [checkRateLimit, hskip]

/-! ## Cookie signer -/

/-- The base64 alphabet. -/
def b64Alphabet : List Char :=
  "ABCDEFGHIJKLMNOPQRSTUVWXYZabcdefghijklmnopqrstuvwxyz0123456789+/".toList

/-- Character of a 6-bit group. -/
def b64Char (n : Nat) : Char := b64Alphabet.getD n 'A'

/-- Standard base64 of a byte list (with `=` padding), as produced by
`digest('base64')`. -/
def base64Encode : List Nat → List Char
  | [] => []
  | [b1] => [b64Char (b1 / 4), b64Char (b1 % 4 * 16), '=', '=']
  | [b1, b2] =>
    [b64Char (b1 / 4), b64Char (b1 % 4 * 16 + b2 / 16), b64Char (b2 % 16 * 4), '=']
  | b1 :: b2 :: b3 :: rest =>
    b64Char (b1 / 4) :: b64Char (b1 % 4 * 16 + b2 / 16) ::
      b64Char (b2 % 16 * 4 + b3 / 64) :: b64Char (b3 % 64) :: base64Encode rest

/-- The URL-safe rewrite chain `replace('+','-'), replace('/','_'),
replace('=','')`. -/
def jsUrlSafe (cs : List Char) : List Char :=
  (cs.map (fun c => if c = '+' then '-' else if c = '/' then '_' else c)).filter
    (fun c => decide (c ≠ '='))

/-- URL-safe unpadded base64 of the HMAC digest bytes. -/
def b64url (bytes : List Nat) : List Char := jsUrlSafe (base64Encode bytes)

/-- `CookieSigner.sign`: refuse the empty value, else
`value + "." + base64url(HMAC-SHA256(value, secret))`; the HMAC digest is
the `hmac` parameter. -/
def jsSign (hmac : List Char → List Nat) (v : List Char) :
    Option (List Char) :=
  if v = [] then none else some (v ++ '.' :: b64url (hmac v))

/-- Index of the last `.` (JS `lastIndexOf('.')`), `none` when absent. -/
def lastDotIdx (cs : List Char) : Option Nat :=
  match cs.reverse.findIdx? (fun c => c = '.') with
  | none => none
  | some i => some (cs.length - 1 - i)

/-- `constantTimeEqual`: equal lengths and a zero xor-accumulator, i.e.
equal characters at every position. -/
def constantTimeEqual (a b : List Char) : Bool :=
  (a.length == b.length) && ((a.zip b).all (fun p => p.1 == p.2))

/-- `CookieSigner.verify`: split at the last dot, recompute the expected
signature as `sign(value).split('.')[1]`, compare in constant time.  A
missing `[1]` segment surfaces as the caught-exception `null` path. -/
def jsVerify (hmac : List Char → List Nat) (signed : List Char) :
    Option (List Char) :=
  if signed = [] then none
  else
    match lastDotIdx signed with
    | none => none
    | some idx =>
      let value := signed.take idx
      let signature := signed.drop (idx + 1)
      if value = [] then none
      else if signature = [] then none
      else
        match jsSign hmac value with
        | none => none
        | some resigned =>
          match (resigned.splitOn '.').get? 1 with
          | none => none
          | some expected =>
            if constantTimeEqual signature expected then some value else none

/-! ## Claim C4: sign/verify round trip -/

/-- A fixed 32-byte digest standing in for HMAC-SHA256. -/
def c4Hmac : List Char → List Nat := fun _ => List.range 32

/-- C4: for the dotted value `a.b`, `sign` succeeds but `verify` of the
signed value returns null instead of the original value: `verify`
splits off the signature at the last dot, yet recomputes the expected
signature as `sign(value).split('.')[1]`, which for a value containing a
dot is an inner segment of the value (here `b`), never the signature. -/
theorem verify_sign_dotted_value :
    (jsSign c4Hmac (['a', '.', 'b'] : List Char)).isSome = true ∧
    jsVerify c4Hmac ((jsSign c4Hmac (['a', '.', 'b'] : List Char)).getD [])
      = none := by
  constructor
  · rfl
  · rfl

/-! ## Microsoft key directory cache -/

/-- A JWK entry of the fetched key set; a missing `x5c` is the empty
list, missing `n`/`e` are empty strings (falsy in the JS guards). -/
structure MicrosoftPublicKey where
  kty : String
  use : String
  kid : String
  x5t : String
  n : String
  e : String
  x5c : List String
  deriving DecidableEq, Repr

/-- PEM wrapping of the first `x5c` certificate. -/
def certPEM (cert : String) : String :=
  "-----BEGIN CERTIFICATE-----\n" ++ cert ++ "\n-----END CERTIFICATE-----"

/-- `convertJWKToPEM`: only RSA keys; certificate-chain material is
preferred, modulus/exponent reconstruction (`pemFromNE`, standing for
`crypto.createPublicKey`; `none` models a throw, caught to `null`) is the
fallback. -/
def convertJWKToPEM (pemFromNE : String → String → Option String)
    (jwk : MicrosoftPublicKey) : Option String :=
  if jwk.kty ≠ "RSA" then none
  else
    match jwk.x5c with
    | c :: _ => some (certPEM c)
    | [] =>
      if jwk.n ≠ "" ∧ jwk.e ≠ "" then pemFromNE jwk.n jwk.e
      else none

/-- The `for (const key of jwks.keys)` loop caching every convertible
key. -/
def cacheAllKeys (pemFromNE : String → String → Option String)
    (keys : List MicrosoftPublicKey) (cache : List (String × String)) :
    List (String × String) :=
  keys.foldl
    (fun c key =>
      match convertJWKToPEM pemFromNE key with
      | some pem => alSet c ("key_" ++ key.kid) pem
      | none => c)
    cache

/-- `getMicrosoftPublicKeys`: cache lookup under `key_<kid>` (or
`all_keys`), then — on a miss with a successfully fetched key set — find
the requested key, convert it, cache it and return; conversion failure
or an absent requested kid fall through as in the source. -/
def getMicrosoftPublicKeys (pemFromNE : String → String → Option String)
    (kid : Option String) (fetched : Option (List MicrosoftPublicKey))
    (cache : List (String × String)) :
    Option String × List (String × String) :=
  let cacheKey := match kid with
    | some k => "key_" ++ k
    | none => "all_keys"
  match alFind cache cacheKey with
  | some v => (some v, cache)
  | none =>
    match fetched with
    | none => (none, cache)
    | some keys =>
      match kid with
      | some k =>
        match keys.find? (fun key => key.kid == k) with
        | none => (none, cache)
        | some key =>
          match convertJWKToPEM pemFromNE key with
          | some pem => (some pem, alSet cache cacheKey pem)
          | none => (none, cacheAllKeys pemFromNE keys cache)
      | none =>
        let cache2 := cacheAllKeys pemFromNE keys cache
        match keys with
        | [] => (none, cache2)
        | k0 :: _ => (convertJWKToPEM pemFromNE k0, cache2)

/-! ## Claim C8: key-set caching -/

/-- An always-failing modulus/exponent reconstruction (unused on the
x5c path). -/
def c8NoNE : String → String → Option String := fun _ _ => none

/-- The requested key `a` and a second convertible key `b`. -/
def c8KeyA : MicrosoftPublicKey :=
  { kty := "RSA", use := "sig", kid := "a", x5t := "", n := "", e := ""
    x5c := ["CA"] }

/-- See `c8KeyA`. -/
def c8KeyB : MicrosoftPublicKey :=
  { kty := "RSA", use := "sig", kid := "b", x5t := "", n := "", e := ""
    x5c := ["CB"] }

/-- C8 counterexample: a cache miss for requested kid `a` with a
successful fetch of two convertible keys resolves `a` but leaves key `b`
uncached — the code returns right after caching the requested key, so the
cache is not populated for all fetched keys. -/
theorem getKeys_partial_cache_counterexample :
    (getMicrosoftPublicKeys c8NoNE (some "a") (some [c8KeyA, c8KeyB]) []).1
      = some (certPEM "CA") ∧
    (convertJWKToPEM c8NoNE c8KeyB).isSome = true ∧
    alFind (getMicrosoftPublicKeys c8NoNE (some "a")
      (some [c8KeyA, c8KeyB]) []).2 "key_b" = none := by
  refine ⟨rfl, rfl, rfl⟩

theorem cacheAllKeys_preserves_isSome
    (pemFromNE : String → String → Option String)
    (keys : List MicrosoftPublicKey) (cache : List (String × String))
    (k : String) (h : alFind cache k ≠ none) :
    alFind (cacheAllKeys pemFromNE keys cache) k ≠ none := by
  induction keys generalizing cache with
  | nil => exact h
  | cons key rest ih =>
    simp only [cacheAllKeys, List.foldl_cons]
    cases hc : convertJWKToPEM pemFromNE key with
    | none =>
      exact ih cache h
    | some pem =>
      apply ih
      by_cases hk : k = "key_" ++ key.kid
      · rw [hk, alFind_alSet_self]
        simp
      · rw [alFind_alSet_ne _ _ _ _ hk]
        exact h

theorem cacheAllKeys_covers (pemFromNE : String → String → Option String)
    (keys : List MicrosoftPublicKey) (cache : List (String × String))
    (key : MicrosoftPublicKey) (hmem : key ∈ keys)
    (hconv : (convertJWKToPEM pemFromNE key).isSome = true) :
    alFind (cacheAllKeys pemFromNE keys cache) ("key_" ++ key.kid)
      ≠ none := by
  induction keys generalizing cache with
  | nil => simp at hmem
  | cons k0 rest ih =>
    simp only [cacheAllKeys, List.foldl_cons]
    rcases List.mem_cons.mp hmem with hk0 | hrest
    · subst hk0
      cases hc : convertJWKToPEM pemFromNE key with
      | none => rw [hc] at hconv; simp at hconv
      | some pem =>
        apply cacheAllKeys_preserves_isSome
        rw [alFind_alSet_self]
        simp
    · cases hc : convertJWKToPEM pemFromNE k0 with
      | none => exact ih _ hrest
      | some pem => exact ih _ hrest

/-- C8 (amended): on a cache miss for a requested key id with a
successful fetch, when the requested key is found and converts, only that
key's material is cached (and returned); the cache is populated for all
convertible fetched keys only on the no-kid path (or when the requested
key's conversion fails); and conversion prefers certificate-chain
material over modulus/exponent reconstruction whenever an `x5c`
certificate is present. -/
theorem getMicrosoftPublicKeys_caching
    (pemFromNE : String → String → Option String) (k : String)
    (keys : List MicrosoftPublicKey) (cache : List (String × String))
    (key : MicrosoftPublicKey) (pem : String)
    (hmiss : alFind cache ("key_" ++ k) = none)
    (hfound : keys.find? (fun j => j.kid == k) = some key)
    (hconv : convertJWKToPEM pemFromNE key = some pem) :
    getMicrosoftPublicKeys pemFromNE (some k) (some keys) cache
      = (some pem, alSet cache ("key_" ++ k) pem) ∧
    (∀ (jwk : MicrosoftPublicKey) (c : String) (rest : List String),
      jwk.kty = "RSA" → jwk.x5c = c :: rest →
        convertJWKToPEM pemFromNE jwk = some (certPEM c)) ∧
    (∀ (cache' : List (String × String)) (jwk : MicrosoftPublicKey),
      alFind cache' "all_keys" = none → jwk ∈ keys →
      (convertJWKToPEM pemFromNE jwk).isSome = true →
      alFind (getMicrosoftPublicKeys pemFromNE none (some keys) cache').2
        ("key_" ++ jwk.kid) ≠ none) := by
  refine ⟨?_, ?_, ?_⟩
  · simp [getMicrosoftPublicKeys, hmiss, hfound, hconv]
  · intro jwk c rest hkty hx5c
    simp [convertJWKToPEM, hkty, hx5c]
  · intro cache' jwk hmiss' hmem hconv'
    have hstate : ∀ (ks : List MicrosoftPublicKey),
        (getMicrosoftPublicKeys pemFromNE none (some ks) cache').2
          = cacheAllKeys pemFromNE ks cache' := by
      intro ks
      cases ks with
      | nil => simp [getMicrosoftPublicKeys, hmiss', cacheAllKeys]
      | cons k0 rest => simp [getMicrosoftPublicKeys, hmiss']
    rw [hstate keys]
    exact cacheAllKeys_covers pemFromNE keys cache' jwk hmem hconv'

/-- C8 witness: the caching theorem applied to the two-key fetch with
requested kid `a`. -/
theorem getMicrosoftPublicKeys_caching_witness :
    getMicrosoftPublicKeys c8NoNE (some "a") (some [c8KeyA, c8KeyB]) []
      = (some (certPEM "CA"), alSet [] "key_a" (certPEM "CA")) ∧
    alFind (getMicrosoftPublicKeys c8NoNE none
      (some [c8KeyA, c8KeyB]) []).2 "key_b" ≠ none := by
  have h := getMicrosoftPublicKeys_caching c8NoNE "a" [c8KeyA, c8KeyB] []
    c8KeyA (certPEM "CA") rfl rfl rfl
  exact ⟨h.1, h.2.2 [] c8KeyB rfl (by simp) rfl⟩

end DifyAuth
